import Mathlib

/-!
# Verification of the pt-apis ingestion core

Shallow embedding of the scheduler and ingestion storage layer of the
`pt-apis` repository (Cloudflare Worker aggregating Portuguese public data
sources), together with proofs of the specification's claims.

Embedding conventions:
* machine timestamps (`Date`) are modelled as natural numbers (milliseconds
  or absolute minutes, as noted at each definition);
* JSON payloads are represented by their serialized byte string, so
  `JSON.stringify` on a payload is the identity on this representation;
* the SHA-256 digest is an abstract function parameter `hash`; claims whose
  truth needs collision-freedom take injectivity of `hash` as a hypothesis
  (the ideal-hash reading of the spec);
* `crypto.randomUUID().slice(0, 8)` suffixes are supplied explicitly as
  parameters, so every function is deterministic in its inputs.
-/

namespace PtApis

/-! ## Scheduler: cron frequency resolution (`src/core/scheduler.ts`) -/

/-- The `CronFrequency` union type of `src/core/adapter.ts`. -/
inductive CronFrequency where
  | every_minute
  | every_5_minutes
  | every_15_minutes
  | hourly
  | every_6_hours
  | daily
  | weekly
deriving DecidableEq, Repr

/-- `shouldRun` from the scheduler: decides whether a schedule with logical
frequency `frequency` runs for a trigger delivery of cron string `cron`
at wall-clock `minute`, `hour`, `dayOfWeek` (0 = Sunday). Direct
transcription of the `switch` in the source. -/
def shouldRun (frequency : CronFrequency) (cron : String)
    (minute hour dayOfWeek : Nat) : Bool :=
  match frequency with
  | .every_minute => cron == "* * * * *"
  | .every_5_minutes => cron == "* * * * *" && minute % 5 == 0
  | .every_15_minutes => cron == "* * * * *" && minute % 15 == 0
  | .hourly => cron == "0 * * * *"
  | .every_6_hours => cron == "0 * * * *" && hour % 6 == 0
  | .daily => cron == "0 0 * * *"
  | .weekly => cron == "0 0 * * *" && dayOfWeek == 0

/-- The cadence bucket each logical frequency is mapped to, as described by
the spec's resolution algorithm (the three Cloudflare cron triggers). -/
def bucketCron : CronFrequency → String
  | .every_minute => "* * * * *"
  | .every_5_minutes => "* * * * *"
  | .every_15_minutes => "* * * * *"
  | .hourly => "0 * * * *"
  | .every_6_hours => "0 * * * *"
  | .daily => "0 0 * * *"
  | .weekly => "0 0 * * *"

/-- The finer-grained condition of the spec's resolution algorithm
(modulo checks and the fixed weekly day). -/
def finerCondition : CronFrequency → Nat → Nat → Nat → Bool
  | .every_5_minutes, minute, _, _ => minute % 5 == 0
  | .every_15_minutes, minute, _, _ => minute % 15 == 0
  | .every_6_hours, _, hour, _ => hour % 6 == 0
  | .weekly, _, _, dayOfWeek => dayOfWeek == 0
  | _, _, _, _ => true

/-- Wall-clock minute of an absolute time expressed in minutes. -/
def minuteOf (t : Nat) : Nat := t % 60

/-- Wall-clock hour of an absolute time expressed in minutes. -/
def hourOf (t : Nat) : Nat := t / 60 % 24

/-- Day of week (0 = Sunday, epoch day chosen as a Sunday) of an absolute
time expressed in minutes. -/
def dayOfWeekOf (t : Nat) : Nat := t / 1440 % 7

/-- Whether the external scheduler delivers cron `cron` at absolute minute
`t`: one delivery per cadence bucket per period (`* * * * *` every minute,
`0 * * * *` at the top of each hour, `0 0 * * *` at each midnight). -/
def cronFiresAt (cron : String) (t : Nat) : Bool :=
  if cron == "* * * * *" then true
  else if cron == "0 * * * *" then t % 60 == 0
  else if cron == "0 0 * * *" then t % 1440 == 0
  else false

/-- Whether a schedule of frequency `f` fires at absolute minute `t`: some
delivered cadence cron makes `shouldRun` true. -/
def firesAt (f : CronFrequency) (t : Nat) : Bool :=
  (cronFiresAt "* * * * *" t
      && shouldRun f "* * * * *" (minuteOf t) (hourOf t) (dayOfWeekOf t))
    || (cronFiresAt "0 * * * *" t
      && shouldRun f "0 * * * *" (minuteOf t) (hourOf t) (dayOfWeekOf t))
    || (cronFiresAt "0 0 * * *" t
      && shouldRun f "0 0 * * *" (minuteOf t) (hourOf t) (dayOfWeekOf t))

/-- The period, in minutes, that each declared frequency implies. -/
def periodMinutes : CronFrequency → Nat
  | .every_minute => 1
  | .every_5_minutes => 5
  | .every_15_minutes => 15
  | .hourly => 60
  | .every_6_hours => 360
  | .daily => 1440
  | .weekly => 10080

/-! ## Storage layer: retry wrapper (`withRetry` in `src/core/storage.ts`) -/

/-- `MAX_RETRIES` constant of the storage layer. -/
def MAX_RETRIES : Nat := 3

/-- `BASE_DELAY_MS` constant of the storage layer. -/
def BASE_DELAY_MS : Nat := 200

/-- JavaScript `String.prototype.includes`: substring test, expressed on
the character lists. -/
def strContains (s pat : String) : Bool :=
  (List.range (s.length + 1)).any fun i => pat.data.isPrefixOf (s.data.drop i)

/-- The transient-error classification of `withRetry`: the message matches
the allow-list of backend-busy / rate-limit / network-failure signatures. -/
def isTransient (message : String) : Bool :=
  strContains message "SQLITE_BUSY"
    || strContains message "D1_ERROR"
    || strContains message "network"
    || strContains message "fetch failed"
    || strContains message "Too many requests"

/-- Loop body of `withRetry`. `attempts k` is the outcome the wrapped
function would produce on its `k`-th invocation (`ε` is the type of thrown
error values, `messageOf` the message extraction
`error instanceof Error ? error.message : String(error)`). Returns the
final outcome together with the list of backoff delays slept, in order.
`remaining` counts the loop iterations left; `attempt = MAX_RETRIES -
remaining` as in the source's `for` loop. -/
def retryLoop {ε α : Type} [Inhabited ε] (messageOf : ε → String)
    (attempts : Nat → Except ε α) : Nat → Nat → Except ε α × List Nat
  | _, 0 => (.error default, [])
  | attempt, remaining + 1 =>
    match attempts attempt with
    | .ok a => (.ok a, [])
    | .error e =>
      if !isTransient (messageOf e) || remaining == 0 then (.error e, [])
      else
        let delay := BASE_DELAY_MS * 2 ^ attempt
        let r := retryLoop messageOf attempts (attempt + 1) remaining
        (r.1, delay :: r.2)

/-- `withRetry` from the storage layer: run `attempts` up to `MAX_RETRIES`
times, retrying transient errors with exponential backoff. -/
def withRetry {ε α : Type} [Inhabited ε] (messageOf : ε → String)
    (attempts : Nat → Except ε α) : Except ε α × List Nat :=
  retryLoop messageOf attempts 0 MAX_RETRIES

/-! ## Storage layer: `api_data` rows and `storeApiData` -/

/-- The optional `ApiDataInput` options of `storeApiData` (fields read by
the storage layer: `timestamp`, `scrapedAt`, `locationId`, `tags`).
Timestamps are epoch milliseconds; `tags` is represented by its serialized
form. -/
structure ApiDataInput where
  timestamp : Option Nat
  scrapedAt : Option Nat
  locationId : Option String
  tags : Option String
deriving DecidableEq, Repr

/-- A row of the `api_data` table (migration `0002` adds `content_hash`
with the unique index `idx_api_data_dedup` on
`(api_source, payload_type, content_hash)`). -/
structure ApiRow where
  id : String
  apiSource : String
  payloadType : String
  timestamp : Nat
  locationId : Option String
  payload : String
  tags : Option String
  contentHash : String
  scrapedAt : Nat
deriving DecidableEq, Repr

/-- Whether an existing row `r` conflicts with the candidate `row` on the
dedup key `(api_source, payload_type, content_hash)`. -/
def dedupConflict (r row : ApiRow) : Bool :=
  r.apiSource == row.apiSource && r.payloadType == row.payloadType
    && r.contentHash == row.contentHash

/-- `INSERT ... ON CONFLICT (api_source, payload_type, content_hash) DO
NOTHING`: append the row unless a row with the same dedup triple exists. -/
def insertOrIgnoreApiData (rows : List ApiRow) (row : ApiRow) : List ApiRow :=
  if rows.any (fun r => dedupConflict r row) then rows else rows ++ [row]

/-- The row `storeApiData` builds: timestamps default to `now`, the id is
`adapterId:payloadType:location:timestamp:uuid`, the content hash is the
digest of the serialized payload. -/
def mkApiRow (hash : String → String) (adapterId payloadType payload : String)
    (options : Option ApiDataInput) (now : Nat) (uuid : String) : ApiRow :=
  let timestamp := (options.bind ApiDataInput.timestamp).getD now
  let scrapedAt := (options.bind ApiDataInput.scrapedAt).getD now
  let payloadJson := payload
  let contentHash := hash payloadJson
  { id := adapterId ++ ":" ++ payloadType ++ ":"
      ++ ((options.bind ApiDataInput.locationId).getD "global") ++ ":"
      ++ toString timestamp ++ ":" ++ uuid
    apiSource := adapterId
    payloadType := payloadType
    timestamp := timestamp
    locationId := options.bind ApiDataInput.locationId
    payload := payloadJson
    tags := options.bind ApiDataInput.tags
    contentHash := contentHash
    scrapedAt := scrapedAt }

/-- `storeApiData`: build the row and insert it with insert-or-ignore
semantics on the dedup triple; return the row id together with the new
table contents. `now` is the clock reading, `uuid` the random id suffix. -/
def storeApiData (hash : String → String) (rows : List ApiRow)
    (adapterId payloadType payload : String) (options : Option ApiDataInput)
    (now : Nat) (uuid : String) : String × List ApiRow :=
  let row := mkApiRow hash adapterId payloadType payload options now uuid
  (row.id, insertOrIgnoreApiData rows row)

/-- Number of rows carrying a given dedup triple. -/
def countDedup (rows : List ApiRow) (apiSource payloadType contentHash : String) :
    Nat :=
  (rows.filter fun r =>
    r.apiSource == apiSource && r.payloadType == payloadType
      && r.contentHash == contentHash).length

/-! ## Storage layer: `storeBatchApiData` -/

/-- `BATCH_STMT_LIMIT` constant of the storage layer. -/
def BATCH_STMT_LIMIT : Nat := 50

/-- One element of the `items` array of `storeBatchApiData`. -/
structure BatchItem where
  payload : String
  options : Option ApiDataInput
deriving DecidableEq, Repr

/-- The rows `storeBatchApiData` builds from `items`, with `uuid i` the
random suffix drawn for the `i`-th item. -/
def mkBatchRows (hash : String → String) (adapterId payloadType : String)
    (now : Nat) (uuid : Nat → String) : List BatchItem → Nat → List ApiRow
  | [], _ => []
  | item :: rest, i =>
    mkApiRow hash adapterId payloadType item.payload item.options now (uuid i)
      :: mkBatchRows hash adapterId payloadType now uuid rest (i + 1)

/-- Execute one `db.batch` of single-row insert-or-ignore statements:
the statements run sequentially inside one transaction, each seeing the
effects of the previous ones. -/
def applyRows (rows : List ApiRow) (newRows : List ApiRow) : List ApiRow :=
  newRows.foldl insertOrIgnoreApiData rows

/-- The chunking loop of `storeBatchApiData` (`rows.slice(i, i + LIMIT)`
for `i = 0, LIMIT, 2·LIMIT, ...`), for a positive statement limit. -/
def chunksOf (limit : Nat) : List α → List (List α)
  | [] => []
  | x :: xs => (x :: xs.take (limit - 1)) :: chunksOf limit (xs.drop (limit - 1))
termination_by l => l.length
decreasing_by simp only [List.length_drop, List.length_cons]; omega

/-- `storeBatchApiData`, generalized over the statement limit (the source
fixes it to `BATCH_STMT_LIMIT`): empty input is a no-op; otherwise the rows
are built, then submitted either as one `db.batch` or chunk by chunk; the
ids of all attempted rows are returned. -/
def storeBatchApiDataWith (hash : String → String) (limit : Nat)
    (rows : List ApiRow) (adapterId payloadType : String)
    (items : List BatchItem) (now : Nat) (uuid : Nat → String) :
    List String × List ApiRow :=
  if items.isEmpty then ([], rows)
  else
    let newRows := mkBatchRows hash adapterId payloadType now uuid items 0
    let rows' :=
      if newRows.length ≤ limit then applyRows rows newRows
      else (chunksOf limit newRows).foldl applyRows rows
    (newRows.map ApiRow.id, rows')

/-- `storeBatchApiData` as in the source, with the fixed statement limit. -/
def storeBatchApiData (hash : String → String) (rows : List ApiRow)
    (adapterId payloadType : String) (items : List BatchItem) (now : Nat)
    (uuid : Nat → String) : List String × List ApiRow :=
  storeBatchApiDataWith hash BATCH_STMT_LIMIT rows adapterId payloadType items
    now uuid

/-- N sequential `storeApiData` calls (the spec's reference behavior for
the batch/sequential equivalence claim), threading the table through the
calls; the `i`-th call draws `uuid i`. -/
def storeSeq (hash : String → String) (adapterId payloadType : String)
    (now : Nat) (uuid : Nat → String) :
    List ApiRow → List BatchItem → Nat → List ApiRow
  | rows, [], _ => rows
  | rows, item :: rest, i =>
    storeSeq hash adapterId payloadType now uuid
      (storeApiData hash rows adapterId payloadType item.payload item.options
        now (uuid i)).2
      rest (i + 1)

/-! ## Storage layer: locations -/

/-- `LocationInput` from `src/core/adapter.ts`; coordinates are modelled as
rationals (SQLite `real` column, never computed with), `metadata` by its
serialized form. -/
structure LocationInput where
  id : String
  name : String
  latitude : Option Rat
  longitude : Option Rat
  type : String
  region : Option String
  district : Option String
  municipality : Option String
  metadata : Option String
deriving DecidableEq, Repr

/-- A row of the `locations` table. -/
structure LocationRow where
  id : String
  name : String
  latitude : Option Rat
  longitude : Option Rat
  type : String
  region : Option String
  district : Option String
  municipality : Option String
  metadata : Option String
deriving DecidableEq, Repr

/-- The row `registerLocation` writes for an input (absent optional fields
become NULL; metadata is stored serialized). -/
def locationRowOf (loc : LocationInput) : LocationRow :=
  { id := loc.id
    name := loc.name
    latitude := loc.latitude
    longitude := loc.longitude
    type := loc.type
    region := loc.region
    district := loc.district
    municipality := loc.municipality
    metadata := loc.metadata }

/-- `registerLocation`: `INSERT ... ON CONFLICT (id) DO UPDATE` — replace
every row with the same id, or append a fresh row. -/
def registerLocation (rows : List LocationRow) (loc : LocationInput) :
    List LocationRow :=
  if rows.any (fun r => r.id == loc.id) then
    rows.map fun r => if r.id == loc.id then locationRowOf loc else r
  else rows ++ [locationRowOf loc]

/-- Number of `locations` rows with a given id. -/
def countLocation (rows : List LocationRow) (id : String) : Nat :=
  (rows.filter fun r => r.id == id).length

/-! ## Storage layer: documents and ingest log -/

/-- A row of the `documents` table (metadata only; the blob lives in R2). -/
structure DocumentRow where
  id : String
  adapterId : String
  name : String
  contentType : String
  r2Key : String
  locationId : Option String
  sizeBytes : Option Nat
  metadata : Option String
  capturedAt : Nat
deriving DecidableEq, Repr

/-- A row of the `ingest_log` table. -/
structure LogRow where
  id : Nat
  adapterId : String
  status : String
  recordsCount : Nat
  error : Option String
  startedAt : Nat
  finishedAt : Option Nat
deriving DecidableEq, Repr

/-- A row of the `sources` table, restricted to the columns the scheduler
reads or writes (`last_fetched_at`); the remaining display columns are
never touched by the ingestion core. -/
structure SourceRow where
  id : String
  lastFetchedAt : Option Nat
deriving DecidableEq, Repr

/-- The D1 database state seen by the ingestion core. `nextLogId` models
the `ingest_log` AUTOINCREMENT counter. -/
structure DBState where
  apiData : List ApiRow
  locations : List LocationRow
  documents : List DocumentRow
  ingestLog : List LogRow
  nextLogId : Nat
  sources : List SourceRow
deriving Repr

/-- `logIngestStart`: insert a `running` row and return its fresh id. -/
def logIngestStart (s : DBState) (adapterId : String) (now : Nat) :
    Nat × DBState :=
  (s.nextLogId,
   { s with
      ingestLog := s.ingestLog
        ++ [{ id := s.nextLogId
              adapterId := adapterId
              status := "running"
              recordsCount := 0
              error := none
              startedAt := now
              finishedAt := none }]
      nextLogId := s.nextLogId + 1 })

/-- `logIngestSuccess`: finalize the row `logId` to `success` with the
given record count. -/
def logIngestSuccess (s : DBState) (logId : Nat) (recordsCount : Nat)
    (now : Nat) : DBState :=
  { s with
      ingestLog := s.ingestLog.map fun r =>
        if r.id == logId then
          { r with
            status := "success"
            recordsCount := recordsCount
            finishedAt := some now }
        else r }

/-- `logIngestError`: finalize the row `logId` to `error` with a message. -/
def logIngestError (s : DBState) (logId : Nat) (error : String) (now : Nat) :
    DBState :=
  { s with
      ingestLog := s.ingestLog.map fun r =>
        if r.id == logId then
          { r with
            status := "error"
            error := some error
            finishedAt := some now }
        else r }

/-- The scheduler's `UPDATE sources SET last_fetched_at = now WHERE id =
adapterId` on the success path. -/
def updateLastFetched (s : DBState) (adapterId : String) (now : Nat) :
    DBState :=
  { s with
      sources := s.sources.map fun r =>
        if r.id == adapterId then { r with lastFetchedAt := some now } else r }

/-- Look up an ingest-log row by id. -/
def findLog (s : DBState) (logId : Nat) : Option LogRow :=
  s.ingestLog.find? fun r => r.id == logId

/-- Well-formedness: every existing log row's id is below the
AUTOINCREMENT counter. -/
def LogIdsBounded (s : DBState) : Prop :=
  ∀ r ∈ s.ingestLog, r.id < s.nextLogId

/-! ## Scheduler: job execution (`runAdapter`, `handleScheduled`) -/

/-- One call a handler makes on its `AdapterContext`. These are the only
primitives the context exposes to handlers (`createAdapterContext`); in
particular there is no primitive that touches `ingest_log`, `sources`,
or reports a record count. -/
inductive CtxOp where
  | storeRecord (adapterId payloadType payload : String)
      (options : Option ApiDataInput) (now : Nat) (uuid : String)
  | storeBatch (adapterId payloadType : String) (items : List BatchItem)
      (now : Nat) (uuid : Nat → String)
  | registerLoc (loc : LocationInput)
  | uploadDoc (adapterId docId name contentType : String)
      (locationId : Option String) (metadata : Option String)
      (sizeBytes : Option Nat) (now : Nat)

/-- Effect of one context call on the database state. -/
def applyOp (hash : String → String) (s : DBState) : CtxOp → DBState
  | .storeRecord a pt p opts now u =>
    { s with apiData := (storeApiData hash s.apiData a pt p opts now u).2 }
  | .storeBatch a pt items now u =>
    { s with apiData := (storeBatchApiData hash s.apiData a pt items now u).2 }
  | .registerLoc loc => { s with locations := registerLocation s.locations loc }
  | .uploadDoc a docId nm ct locId md sz now =>
    { s with
        documents := s.documents
          ++ [{ id := docId
                adapterId := a
                name := nm
                contentType := ct
                r2Key := a ++ "/" ++ docId ++ "/" ++ nm
                locationId := locId
                sizeBytes := sz
                metadata := md
                capturedAt := now }] }

/-- A value thrown by a handler: either an `Error` instance (classified by
its `message`) or any other value (classified by `String(value)`). -/
inductive Thrown where
  | errObject (message : String)
  | nonError (stringValue : String)
deriving DecidableEq, Repr

/-- `err instanceof Error ? err.message : String(err)` in `runAdapter`. -/
def extractMessage : Thrown → String
  | .errObject m => m
  | .nonError s => s

/-- A handler run, observed at the context boundary: the context calls it
performed, in order, and whether it returned (`none`) or threw
(`some err`) afterwards. A handler that throws between two context calls
is the `Handler` whose `ops` list is the prefix it actually executed. -/
structure Handler where
  ops : List CtxOp
  outcome : Option Thrown

/-- Apply all of a handler's context calls to the state. -/
def runHandlerOps (hash : String → String) (h : Handler) (s : DBState) :
    DBState :=
  h.ops.foldl (applyOp hash) s

/-- `runAdapter` from the scheduler: open a `running` log row, run the
handler, then either finalize to `success` (with constant record count 0)
and advance `last_fetched_at`, or catch the thrown value and finalize to
`error` with its message. The catch swallows the error: `runAdapter`
always returns a state. -/
def runAdapter (hash : String → String) (adapterId : String) (h : Handler)
    (now : Nat) (s : DBState) : DBState :=
  let start := logIngestStart s adapterId now
  let s2 := runHandlerOps hash h start.2
  match h.outcome with
  | none => updateLastFetched (logIngestSuccess s2 start.1 0 now) adapterId now
  | some err => logIngestError s2 start.1 (extractMessage err) now

/-- The dispatch loop of `handleScheduled`: run every matching job. Jobs
are dispatched as independent tasks; each one's database effect is as in
`runAdapter` and no outcome of one job feeds into another. -/
def dispatchAll (hash : String → String) (jobs : List (String × Handler))
    (now : Nat) (s : DBState) : DBState :=
  jobs.foldl (fun st job => runAdapter hash job.1 job.2 now st) s

/-! ## Registry (`src/core/registry.ts`) -/

/-- An adapter definition, restricted to the fields the registry inspects
(`id`); `name` stands in for the remaining display metadata. -/
structure AdapterDef where
  id : String
  name : String
deriving DecidableEq, Repr

/-- `registry.has(id)`. The registry's `Map` is modelled as its
insertion-ordered entry list. -/
def regHas (reg : List AdapterDef) (id : String) : Bool :=
  reg.any (·.id == id)

/-- `registry.get(id)`. -/
def regGet (reg : List AdapterDef) (id : String) : Option AdapterDef :=
  reg.find? (·.id == id)

/-- The error message of the duplicate-registration throw. -/
def dupMessage (id : String) : String :=
  "Adapter \"" ++ id ++ "\" is already registered."

/-- `registry.register(adapter)`: throw on a duplicate id, otherwise
insert. The thrown error is modelled as the `Except.error` carrying its
message; the registry value is unchanged in that case (the caller keeps
the old one). -/
def regRegister (reg : List AdapterDef) (a : AdapterDef) :
    Except String (List AdapterDef) :=
  if regHas reg a.id then .error (dupMessage a.id)
  else .ok (reg ++ [a])

/-- The set of registered identifiers. -/
def regIds (reg : List AdapterDef) : List String :=
  reg.map (·.id)

/-! ## Derived notions used to state the claims -/

/-- The terminal audit status a handler outcome maps to. -/
def statusOf : Option Thrown → String
  | none => "success"
  | some _ => "error"

/-- Effect of one context call on the `api_data` table alone (context calls
never read the audit log or sources, so their `api_data` effect is a
function of the table). -/
def apiEffect (hash : String → String) (rows : List ApiRow) : CtxOp → List ApiRow
  | .storeRecord a pt p opts now u => (storeApiData hash rows a pt p opts now u).2
  | .storeBatch a pt items now u => (storeBatchApiData hash rows a pt items now u).2
  | _ => rows

/-- The finalized audit row `runAdapter` leaves for a job that opened log
id `startId` at time `now` with the given outcome. -/
def terminalLogRow (adapterId : String) (outcome : Option Thrown)
    (startId : Nat) (now : Nat) : LogRow :=
  { id := startId
    adapterId := adapterId
    status := statusOf outcome
    recordsCount := 0
    error := outcome.map extractMessage
    startedAt := now
    finishedAt := some now }

/-- The `running` audit row `logIngestStart` inserts. -/
def startLogRow (adapterId : String) (startId now : Nat) : LogRow :=
  { id := startId
    adapterId := adapterId
    status := "running"
    recordsCount := 0
    error := none
    startedAt := now
    finishedAt := none }

/-! # Theorems -/

/-! ## C2: scheduler resolution -/

lemma firesAt_iff (f : CronFrequency) (t : Nat) :
    firesAt f t = true ↔ t % periodMinutes f = 0 := by
  cases f <;>
    simp [firesAt, cronFiresAt, shouldRun, minuteOf, hourOf, dayOfWeekOf,
      periodMinutes, String.reduceEq] <;>
    omega


/-- **C2**: `shouldRun` returns true iff the frequency's cadence bucket is
the delivered cron string and the finer modulo/day condition holds; and,
with one delivery per cadence bucket per period, no schedule fires twice
within the period its declared frequency implies. -/
theorem shouldRun_resolution_correct :
    (∀ (f : CronFrequency) (cron : String) (minute hour dayOfWeek : Nat),
        shouldRun f cron minute hour dayOfWeek
          = (cron == bucketCron f && finerCondition f minute hour dayOfWeek))
      ∧ ∀ (f : CronFrequency) (t1 t2 : Nat),
          t1 < t2 → t2 < t1 + periodMinutes f →
          ¬(firesAt f t1 = true ∧ firesAt f t2 = true) := by
  constructor
  · intro f cron m h d
    cases f <;> simp [shouldRun, bucketCron, finerCondition]
  · intro f t1 t2 hlt hub hboth
    obtain ⟨h1, h2⟩ := hboth
    rw [firesAt_iff] at h1 h2
    have d1 : periodMinutes f ∣ t1 := Nat.dvd_of_mod_eq_zero h1
    have d2 : periodMinutes f ∣ t2 := Nat.dvd_of_mod_eq_zero h2
    have dd : periodMinutes f ∣ t2 - t1 := Nat.dvd_sub' d2 d1
    have hle : periodMinutes f ≤ t2 - t1 := Nat.le_of_dvd (by omega) dd
    omega

/-- Witness for C2 at concrete inputs: the resolution equation at
`every_5_minutes`, minute 10, and the no-double-firing of an `hourly`
schedule at absolute minutes 0 and 30. -/
theorem shouldRun_resolution_correct_witness :
    (shouldRun .every_5_minutes "* * * * *" 10 3 2
        = ("* * * * *" == bucketCron .every_5_minutes
            && finerCondition .every_5_minutes 10 3 2))
      ∧ ¬(firesAt .hourly 0 = true ∧ firesAt .hourly 30 = true) :=
  ⟨shouldRun_resolution_correct.1 .every_5_minutes "* * * * *" 10 3 2,
   shouldRun_resolution_correct.2 .hourly 0 30 (by decide) (by decide)⟩

/-! ## C5: retry policy -/

/-- **C5**: full characterization of `withRetry`: a success on any attempt
returns that attempt's result; a non-transient error propagates unmodified
with no further attempt; a transient error is retried with backoff delays
`BASE_DELAY_MS * 2 ^ attempt` (doubling), up to 3 attempts in total; a
transient error on the final attempt propagates unmodified. -/
theorem withRetry_policy {ε α : Type} [Inhabited ε] (messageOf : ε → String)
    (attempts : Nat → Except ε α) :
    withRetry messageOf attempts =
      match attempts 0 with
      | .ok a => (.ok a, [])
      | .error e0 =>
        if isTransient (messageOf e0) then
          match attempts 1 with
          | .ok a => (.ok a, [BASE_DELAY_MS * 2 ^ 0])
          | .error e1 =>
            if isTransient (messageOf e1) then
              (attempts 2, [BASE_DELAY_MS * 2 ^ 0, BASE_DELAY_MS * 2 ^ 1])
            else (.error e1, [BASE_DELAY_MS * 2 ^ 0])
        else (.error e0, []) := by
  show retryLoop messageOf attempts 0 (2 + 1) = _
  cases h0 : attempts 0 with
  | ok a => simp [retryLoop, h0]
  | error e0 =>
    by_cases ht0 : isTransient (messageOf e0)
    · cases h1 : attempts 1 with
      | ok a => simp [retryLoop, h0, h1, ht0]
      | error e1 =>
        by_cases ht1 : isTransient (messageOf e1)
        · cases h2 : attempts 2 with
          | ok a => simp [retryLoop, h0, h1, h2, ht0, ht1]
          | error e2 => simp [retryLoop, h0, h1, h2, ht0, ht1]
        · simp [retryLoop, h0, h1, ht0, ht1]
    · simp [retryLoop, h0, ht0]


/-- Witness for C5: a persistently failing call whose message matches the
`"network"` signature is retried twice with delays 200 ms and 400 ms and
then propagates unmodified. -/
theorem withRetry_policy_witness :
    withRetry (fun m : String => m)
        (fun _ => (.error "network down" : Except String Nat))
      = (.error "network down", [BASE_DELAY_MS * 2 ^ 0, BASE_DELAY_MS * 2 ^ 1]) := by
  rw [withRetry_policy]
  have ht : isTransient "network down" = true := by decide
  simp [ht]

/-! ## C1 / C9: content-addressed deduplication in `storeApiData` -/

@[simp] lemma mkApiRow_apiSource (hash : String → String)
    (a pt p : String) (opts : Option ApiDataInput) (now : Nat) (u : String) :
    (mkApiRow hash a pt p opts now u).apiSource = a := rfl

@[simp] lemma mkApiRow_payloadType (hash : String → String)
    (a pt p : String) (opts : Option ApiDataInput) (now : Nat) (u : String) :
    (mkApiRow hash a pt p opts now u).payloadType = pt := rfl

@[simp] lemma mkApiRow_contentHash (hash : String → String)
    (a pt p : String) (opts : Option ApiDataInput) (now : Nat) (u : String) :
    (mkApiRow hash a pt p opts now u).contentHash = hash p := rfl

lemma countDedup_append (rows rows' : List ApiRow) (a pt h0 : String) :
    countDedup (rows ++ rows') a pt h0
      = countDedup rows a pt h0 + countDedup rows' a pt h0 := by
  simp [countDedup, List.filter_append]

lemma countDedup_eq_zero_iff (rows : List ApiRow) (a pt h0 : String) :
    countDedup rows a pt h0 = 0 ↔
      (rows.any fun r =>
        r.apiSource == a && r.payloadType == pt && r.contentHash == h0)
        = false := by
  simp [countDedup, List.length_eq_zero, List.filter_eq_nil_iff,
    List.any_eq_false]

lemma storeApiData_snd_of_fresh (hash : String → String) (rows : List ApiRow)
    (a pt p : String) (opts : Option ApiDataInput) (now : Nat) (u : String)
    (hfresh : countDedup rows a pt (hash p) = 0) :
    (storeApiData hash rows a pt p opts now u).2
      = rows ++ [mkApiRow hash a pt p opts now u] := by
  have hany := (countDedup_eq_zero_iff rows a pt (hash p)).mp hfresh
  simp only [storeApiData, insertOrIgnoreApiData, dedupConflict,
    mkApiRow_apiSource, mkApiRow_payloadType, mkApiRow_contentHash, hany,
    Bool.false_eq_true, if_false]

lemma storeApiData_snd_of_dup (hash : String → String) (rows : List ApiRow)
    (a pt p : String) (opts : Option ApiDataInput) (now : Nat) (u : String)
    (hdup : 0 < countDedup rows a pt (hash p)) :
    (storeApiData hash rows a pt p opts now u).2 = rows := by
  have hany : (rows.any fun r =>
      r.apiSource == a && r.payloadType == pt && r.contentHash == hash p)
      = true := by
    rcases h : rows.any fun r =>
        r.apiSource == a && r.payloadType == pt && r.contentHash == hash p with _ | _
    · exact absurd ((countDedup_eq_zero_iff rows a pt (hash p)).mpr h) (by omega)
    · rfl
  simp only [storeApiData, insertOrIgnoreApiData, dedupConflict,
    mkApiRow_apiSource, mkApiRow_payloadType, mkApiRow_contentHash, hany,
    if_true]

lemma countDedup_singleton_self (hash : String → String)
    (a pt p : String) (opts : Option ApiDataInput) (now : Nat) (u : String) :
    countDedup [mkApiRow hash a pt p opts now u] a pt (hash p) = 1 := by
  simp [countDedup, List.filter]

/-- **C1**: `storeApiData` is idempotent on payload content. From a table
holding no row for either dedup triple: writing payload `p` then writing a
byte-identical `p` again leaves exactly one row for `p`'s triple and the
second write is a table no-op (not an error — it still returns); writing
`p` and then a different payload `q` adds two rows. The dedup key is
`(source, payload type, hash of serialized payload)`, the hash computed by
the storage layer (`hash` injective: ideal content hash). -/
theorem storeApiData_dedup_idempotent
    (hash : String → String) (hinj : Function.Injective hash)
    (rows : List ApiRow) (a pt p q : String)
    (o1 o2 oq : Option ApiDataInput) (n1 n2 nq : Nat) (u1 u2 uq : String)
    (hp : countDedup rows a pt (hash p) = 0)
    (hq : countDedup rows a pt (hash q) = 0)
    (hpq : p ≠ q) :
    countDedup (storeApiData hash rows a pt p o1 n1 u1).2 a pt (hash p) = 1
      ∧ (storeApiData hash (storeApiData hash rows a pt p o1 n1 u1).2
          a pt p o2 n2 u2).2 = (storeApiData hash rows a pt p o1 n1 u1).2
      ∧ ((storeApiData hash (storeApiData hash rows a pt p o1 n1 u1).2
          a pt q oq nq uq).2).length = rows.length + 2 := by
  have h1 := storeApiData_snd_of_fresh hash rows a pt p o1 n1 u1 hp
  have hc1 : countDedup (storeApiData hash rows a pt p o1 n1 u1).2
      a pt (hash p) = 1 := by
    rw [h1, countDedup_append, hp, countDedup_singleton_self]
  refine ⟨hc1, storeApiData_snd_of_dup hash _ a pt p o2 n2 u2 (by omega), ?_⟩
  have hqq : countDedup (storeApiData hash rows a pt p o1 n1 u1).2
      a pt (hash q) = 0 := by
    rw [h1, countDedup_append, hq]
    have : (hash p == hash q) = false := by
      rcases h : hash p == hash q with _ | _
      · rfl
      · exact absurd (hinj (by simpa using h)) hpq
    simp [countDedup, List.filter, this]
  rw [storeApiData_snd_of_fresh hash _ a pt q oq nq uq hqq, h1]
  simp

/-- Witness for C1 with the identity as the (injective) hash, an empty
table, and payloads `"a"` and `"b"`. -/
theorem storeApiData_dedup_idempotent_witness :
    countDedup (storeApiData (fun x => x) [] "src" "t" "a" none 0 "u1").2
        "src" "t" "a" = 1
      ∧ (storeApiData (fun x => x)
            (storeApiData (fun x => x) [] "src" "t" "a" none 0 "u1").2
            "src" "t" "a" none 1 "u2").2
          = (storeApiData (fun x => x) [] "src" "t" "a" none 0 "u1").2
      ∧ ((storeApiData (fun x => x)
            (storeApiData (fun x => x) [] "src" "t" "a" none 0 "u1").2
            "src" "t" "b" none 2 "u3").2).length
          = ([] : List ApiRow).length + 2 :=
  storeApiData_dedup_idempotent (fun x => x) (fun _ _ hxy => hxy)
    [] "src" "t" "a" "b" none none none 0 1 2 "u1" "u2" "u3"
    rfl rfl (by decide)

/-- **C9**: `storeApiData` always returns a row id: the id does not depend
on the table state (so a duplicate-ignored write is indistinguishable from
a fresh insert by the return value), it is the concatenation of source,
payload type, location, observation timestamp and the random suffix, and on
a duplicate triple the insert is ignored while the id is still returned. -/
theorem storeApiData_id_transparent :
    (∀ (hash : String → String) (rows rows' : List ApiRow) (a pt p : String)
        (opts : Option ApiDataInput) (now : Nat) (u : String),
        (storeApiData hash rows a pt p opts now u).1
          = (storeApiData hash rows' a pt p opts now u).1)
      ∧ (∀ (hash : String → String) (rows : List ApiRow) (a pt p : String)
          (opts : Option ApiDataInput) (now : Nat) (u : String),
          (storeApiData hash rows a pt p opts now u).1
            = a ++ ":" ++ pt ++ ":"
                ++ ((opts.bind ApiDataInput.locationId).getD "global") ++ ":"
                ++ toString ((opts.bind ApiDataInput.timestamp).getD now)
                ++ ":" ++ u)
      ∧ ∀ (hash : String → String) (rows : List ApiRow) (a pt p : String)
          (opts : Option ApiDataInput) (now : Nat) (u : String),
          0 < countDedup rows a pt (hash p) →
          (storeApiData hash rows a pt p opts now u).2 = rows :=
  ⟨fun _ _ _ _ _ _ _ _ _ => rfl, fun _ _ _ _ _ _ _ _ => rfl,
   fun hash rows a pt p opts now u hdup =>
     storeApiData_snd_of_dup hash rows a pt p opts now u hdup⟩

/-- Witness for C9: a write into a table that already holds the triple is
ignored, yet the id comes back just as for the empty table. -/
theorem storeApiData_id_transparent_witness :
    (storeApiData (fun x => x)
        [mkApiRow (fun x => x) "src" "t" "a" none 0 "w"] "src" "t" "a"
        none 5 "u").1
      = (storeApiData (fun x => x) [] "src" "t" "a" none 5 "u").1
      ∧ (storeApiData (fun x => x)
          [mkApiRow (fun x => x) "src" "t" "a" none 0 "w"] "src" "t" "a"
          none 5 "u").2
        = [mkApiRow (fun x => x) "src" "t" "a" none 0 "w"] :=
  ⟨storeApiData_id_transparent.1 (fun x => x)
      [mkApiRow (fun x => x) "src" "t" "a" none 0 "w"] [] "src" "t" "a"
      none 5 "u",
   storeApiData_id_transparent.2.2 (fun x => x)
      [mkApiRow (fun x => x) "src" "t" "a" none 0 "w"] "src" "t" "a"
      none 5 "u" (by decide)⟩

/-! ## C7: location upsert -/

@[simp] lemma locationRowOf_id (l : LocationInput) :
    (locationRowOf l).id = l.id := rfl

lemma registerLocation_mem (rows : List LocationRow) (l : LocationInput) :
    ∀ r ∈ registerLocation rows l, r.id = l.id → r = locationRowOf l := by
  intro r hr hid
  unfold registerLocation at hr
  split at hr
  · obtain ⟨r0, hr0, heq⟩ := List.mem_map.mp hr
    split at heq
    · exact heq.symm
    · rename_i h0
      subst heq
      exact absurd (beq_iff_eq.mpr hid) h0
  · rename_i hany
    rcases List.mem_append.mp hr with hmem | hmem
    · exfalso
      apply hany
      rw [List.any_eq_true]
      exact ⟨r, hmem, beq_iff_eq.mpr hid⟩
    · simpa using hmem

lemma countLocation_map_upsert (rows : List LocationRow) (l : LocationInput) :
    countLocation (rows.map fun r => if r.id == l.id then locationRowOf l else r)
      l.id = countLocation rows l.id := by
  induction rows with
  | nil => rfl
  | cons a rest ih =>
    simp only [List.map_cons]
    by_cases ha : (a.id == l.id) = true
    · rw [if_pos ha]
      simp only [countLocation, List.filter_cons, locationRowOf_id,
        beq_self_eq_true, ha, if_true, List.length_cons] at ih ⊢
      omega
    · rw [if_neg ha]
      simp only [countLocation, List.filter_cons, ha] at ih ⊢
      simpa using ih

lemma filter_id_eq_nil_of_any_false (rows : List LocationRow) (id : String)
    (h : (rows.any fun r => r.id == id) = false) :
    rows.filter (fun r => r.id == id) = [] := by
  rw [List.filter_eq_nil_iff]
  intro r hr
  simpa using List.any_eq_false.mp h r hr

lemma countLocation_pos_of_any_true (rows : List LocationRow) (id : String)
    (h : (rows.any fun r => r.id == id) = true) :
    0 < countLocation rows id := by
  obtain ⟨r, hr, hid⟩ := List.any_eq_true.mp h
  simp only [countLocation, List.length_pos]
  intro hnil
  exact absurd hid (by simpa using List.filter_eq_nil_iff.mp hnil r hr)

lemma registerLocation_count (rows : List LocationRow) (l : LocationInput)
    (h : countLocation rows l.id ≤ 1) :
    countLocation (registerLocation rows l) l.id = 1 := by
  unfold registerLocation
  by_cases hany : (rows.any fun r => r.id == l.id) = true
  · rw [if_pos hany, countLocation_map_upsert]
    have := countLocation_pos_of_any_true rows l.id hany
    omega
  · rw [if_neg hany]
    have hfalse : (rows.any fun r => r.id == l.id) = false := by
      rcases hh : rows.any fun r => r.id == l.id with _ | _
      · rfl
      · exact absurd hh hany
    unfold countLocation
    rw [List.filter_append, filter_id_eq_nil_of_any_false rows l.id hfalse]
    simp [List.filter_cons]

/-- **C7**: `registerLocation` is a last-write-wins upsert keyed by id:
registering `l1` and then `l2` with the same id, from any table holding at
most one row for that id, leaves exactly one row for the id, and that row
is exactly the row built from the most recent input `l2` (all attributes:
name, coordinates, type, region, district, municipality, metadata). -/
theorem registerLocation_last_write_wins (rows : List LocationRow)
    (l1 l2 : LocationInput) (hid : l1.id = l2.id)
    (hcount : countLocation rows l1.id ≤ 1) :
    countLocation (registerLocation (registerLocation rows l1) l2) l2.id = 1
      ∧ ∀ r ∈ registerLocation (registerLocation rows l1) l2,
          r.id = l2.id → r = locationRowOf l2 := by
  refine ⟨?_, registerLocation_mem _ l2⟩
  have h1 : countLocation (registerLocation rows l1) l2.id = 1 := by
    rw [← hid]; exact registerLocation_count rows l1 hcount
  exact registerLocation_count _ l2 (by omega)

/-- Witness for C7: two concrete inputs with id `"lisbon"` and different
names/coordinates; one row remains and it carries the second input. -/
theorem registerLocation_last_write_wins_witness :
    countLocation (registerLocation (registerLocation []
        { id := "lisbon", name := "Lisboa", latitude := some 38
          longitude := none, type := "city", region := none, district := none
          municipality := none, metadata := none })
        { id := "lisbon", name := "Lisbon", latitude := some 39
          longitude := some (-9), type := "capital", region := some "LVT"
          district := none, municipality := none, metadata := none })
        "lisbon" = 1
      ∧ ∀ r ∈ registerLocation (registerLocation []
          { id := "lisbon", name := "Lisboa", latitude := some 38
            longitude := none, type := "city", region := none, district := none
            municipality := none, metadata := none })
          { id := "lisbon", name := "Lisbon", latitude := some 39
            longitude := some (-9), type := "capital", region := some "LVT"
            district := none, municipality := none, metadata := none },
          r.id = "lisbon" →
            r = locationRowOf
              { id := "lisbon", name := "Lisbon", latitude := some 39
                longitude := some (-9), type := "capital", region := some "LVT"
                district := none, municipality := none, metadata := none } :=
  registerLocation_last_write_wins []
    { id := "lisbon", name := "Lisboa", latitude := some 38
      longitude := none, type := "city", region := none, district := none
      municipality := none, metadata := none }
    { id := "lisbon", name := "Lisbon", latitude := some 39
      longitude := some (-9), type := "capital", region := some "LVT"
      district := none, municipality := none, metadata := none }
    rfl (by decide)

/-! ## C8: registry contract -/

lemma find?_append_of_all_false {α : Type} (p : α → Bool) (l1 l2 : List α)
    (h : ∀ x ∈ l1, p x = false) :
    (l1 ++ l2).find? p = l2.find? p := by
  induction l1 with
  | nil => rfl
  | cons a rest ih =>
    have ha := h a (List.mem_cons_self a rest)
    simp only [List.cons_append, List.find?, ha]
    exact ih fun x hx => h x (List.mem_cons_of_mem a hx)

/-- **C8**: the registry contract: `register` on a present identifier
throws the duplicate error (the registry value is unchanged — the error
carries no new registry); on a fresh identifier it appends the source and
`get` then finds it; `get` of an identifier that is not among the
registered ids returns nothing; and a successful `register` extends the id
set by exactly the new id (there is no removal operation, so ids only
grow). -/
theorem registry_contract :
    (∀ (reg : List AdapterDef) (a : AdapterDef),
        regHas reg a.id = true → regRegister reg a = .error (dupMessage a.id))
      ∧ (∀ (reg : List AdapterDef) (a : AdapterDef),
          regHas reg a.id = false →
            regRegister reg a = .ok (reg ++ [a])
              ∧ regGet (reg ++ [a]) a.id = some a)
      ∧ (∀ (reg : List AdapterDef) (id : String),
          id ∉ regIds reg → regGet reg id = none)
      ∧ (∀ (reg reg' : List AdapterDef) (a : AdapterDef),
          regRegister reg a = .ok reg' → regIds reg' = regIds reg ++ [a.id]) := by
  refine ⟨?_, ?_, ?_, ?_⟩
  · intro reg a h
    simp [regRegister, h]
  · intro reg a h
    have hall : ∀ x ∈ reg, (x.id == a.id) = false := by
      intro x hx
      rcases hh : x.id == a.id with _ | _
      · rfl
      · exact absurd hh (by simpa [regHas, List.any_eq_false] using
          (fun hmem => List.any_eq_false.mp h x hx) hx)
    refine ⟨by simp [regRegister, h], ?_⟩
    unfold regGet
    rw [find?_append_of_all_false _ reg [a] hall]
    simp [List.find?]
  · intro reg id h
    unfold regGet
    rw [List.find?_eq_none]
    intro x hx
    rcases hh : x.id == id with _ | _
    · simp
    · exact absurd (List.mem_map.mpr ⟨x, hx, beq_iff_eq.mp hh⟩) h
  · intro reg reg' a h
    unfold regRegister at h
    by_cases hhas : regHas reg a.id = true
    · rw [if_pos hhas] at h; cases h
    · rw [if_neg hhas] at h
      cases h
      simp [regIds]

/-- Witness for C8: duplicate registration of `"ipma"` throws; fresh
registration of `"sismos"` succeeds and is then found; `"tempo"` was never
registered and is not found. -/
theorem registry_contract_witness :
    regRegister [{ id := "ipma", name := "IPMA" }]
        { id := "ipma", name := "IPMA again" } = .error (dupMessage "ipma")
      ∧ (regRegister [{ id := "ipma", name := "IPMA" }]
            { id := "sismos", name := "Sismos" }
          = .ok [{ id := "ipma", name := "IPMA" },
                 { id := "sismos", name := "Sismos" }]
          ∧ regGet [{ id := "ipma", name := "IPMA" },
                    { id := "sismos", name := "Sismos" }] "sismos"
            = some { id := "sismos", name := "Sismos" })
      ∧ regGet [{ id := "ipma", name := "IPMA" }] "tempo" = none :=
  ⟨registry_contract.1 [{ id := "ipma", name := "IPMA" }]
      { id := "ipma", name := "IPMA again" } (by decide),
   registry_contract.2.1 [{ id := "ipma", name := "IPMA" }]
      { id := "sismos", name := "Sismos" } (by decide),
   registry_contract.2.2.1 [{ id := "ipma", name := "IPMA" }] "tempo"
      (by decide)⟩

/-! ## C3: batch/sequential equivalence -/

lemma applyRows_append (rows l1 l2 : List ApiRow) :
    applyRows rows (l1 ++ l2) = applyRows (applyRows rows l1) l2 := by
  simp [applyRows, List.foldl_append]

lemma foldl_chunksOf (limit : Nat) (hlim : 0 < limit) :
    ∀ (n : Nat) (l : List ApiRow), l.length ≤ n → ∀ rows : List ApiRow,
      (chunksOf limit l).foldl applyRows rows = applyRows rows l := by
  intro n
  induction n with
  | zero =>
    intro l hl rows
    have hnil : l = [] := List.length_eq_zero.mp (Nat.le_zero.mp hl)
    subst hnil
    simp [chunksOf, applyRows]
  | succ n ih =>
    intro l hl rows
    match l with
    | [] => simp [chunksOf, applyRows]
    | x :: xs =>
      rw [chunksOf]
      simp only [List.foldl_cons]
      rw [ih (xs.drop (limit - 1))
          (by simp only [List.length_drop]
              simp only [List.length_cons] at hl
              omega)
          (applyRows rows (x :: xs.take (limit - 1)))]
      rw [← applyRows_append]
      congr 1
      conv_rhs => rw [← List.take_append_drop (limit - 1) xs]
      simp

lemma storeSeq_eq_applyRows (hash : String → String) (a pt : String)
    (now : Nat) (uuid : Nat → String) :
    ∀ (items : List BatchItem) (rows : List ApiRow) (i : Nat),
      storeSeq hash a pt now uuid rows items i
        = applyRows rows (mkBatchRows hash a pt now uuid items i) := by
  intro items
  induction items with
  | nil => intro rows i; rfl
  | cons it rest ih =>
    intro rows i
    rw [storeSeq, mkBatchRows]
    simp only [applyRows, List.foldl_cons]
    exact ih _ (i + 1)

/-- **C3**: for every source, payload type, item list, clock reading, uuid
supply, and positive chunk size, `storeBatchApiData` leaves exactly the
table that the same number of sequential `storeApiData` calls with the same
arguments leave — duplicate payloads inside the list and payloads already
present in the store included (both go through the same per-row
insert-or-ignore, in order). -/
theorem storeBatch_eq_sequential (hash : String → String) (rows : List ApiRow)
    (a pt : String) (items : List BatchItem) (now : Nat) (uuid : Nat → String) :
    (∀ limit, 0 < limit →
        (storeBatchApiDataWith hash limit rows a pt items now uuid).2
          = storeSeq hash a pt now uuid rows items 0)
      ∧ (storeBatchApiData hash rows a pt items now uuid).2
          = storeSeq hash a pt now uuid rows items 0 := by
  have main : ∀ limit, 0 < limit →
      (storeBatchApiDataWith hash limit rows a pt items now uuid).2
        = storeSeq hash a pt now uuid rows items 0 := by
    intro limit hlim
    unfold storeBatchApiDataWith
    by_cases hempty : items.isEmpty = true
    · rw [if_pos hempty]
      have hnil : items = [] := by
        cases items with
        | nil => rfl
        | cons x xs => simp [List.isEmpty] at hempty
      subst hnil
      rfl
    · rw [if_neg hempty]
      simp only
      split
      · rw [storeSeq_eq_applyRows]
      · rw [foldl_chunksOf limit hlim
            (mkBatchRows hash a pt now uuid items 0).length _ le_rfl,
          storeSeq_eq_applyRows]
  exact ⟨main, main BATCH_STMT_LIMIT (by decide)⟩

/-- Witness for C3 at chunk size 1 and an item list with a duplicated
payload (the middle item repeats the first): the chunked batch and the
three sequential calls agree. -/
theorem storeBatch_eq_sequential_witness :
    (storeBatchApiDataWith (fun x => x) 1 [] "src" "t"
        [{ payload := "a", options := none }, { payload := "a", options := none },
         { payload := "b", options := none }] 0 (fun i => toString i)).2
      = storeSeq (fun x => x) "src" "t" 0 (fun i => toString i) []
          [{ payload := "a", options := none }, { payload := "a", options := none },
           { payload := "b", options := none }] 0 :=
  (storeBatch_eq_sequential (fun x => x) [] "src" "t"
    [{ payload := "a", options := none }, { payload := "a", options := none },
     { payload := "b", options := none }] 0 (fun i => toString i)).1 1
    (by decide)

/-! ## C4 / C6 / C10: scheduler job lifecycle -/

@[simp] lemma applyOp_ingestLog (hash : String → String) (s : DBState)
    (op : CtxOp) : (applyOp hash s op).ingestLog = s.ingestLog := by
  cases op <;> rfl

@[simp] lemma applyOp_nextLogId (hash : String → String) (s : DBState)
    (op : CtxOp) : (applyOp hash s op).nextLogId = s.nextLogId := by
  cases op <;> rfl

@[simp] lemma applyOp_sources (hash : String → String) (s : DBState)
    (op : CtxOp) : (applyOp hash s op).sources = s.sources := by
  cases op <;> rfl

lemma applyOp_apiData (hash : String → String) (s : DBState) (op : CtxOp) :
    (applyOp hash s op).apiData = apiEffect hash s.apiData op := by
  cases op <;> rfl

lemma foldl_applyOp_ingestLog (hash : String → String) :
    ∀ (ops : List CtxOp) (s : DBState),
      (ops.foldl (applyOp hash) s).ingestLog = s.ingestLog := by
  intro ops
  induction ops with
  | nil => intro s; rfl
  | cons op rest ih => intro s; rw [List.foldl_cons, ih, applyOp_ingestLog]

lemma foldl_applyOp_nextLogId (hash : String → String) :
    ∀ (ops : List CtxOp) (s : DBState),
      (ops.foldl (applyOp hash) s).nextLogId = s.nextLogId := by
  intro ops
  induction ops with
  | nil => intro s; rfl
  | cons op rest ih => intro s; rw [List.foldl_cons, ih, applyOp_nextLogId]

lemma foldl_applyOp_sources (hash : String → String) :
    ∀ (ops : List CtxOp) (s : DBState),
      (ops.foldl (applyOp hash) s).sources = s.sources := by
  intro ops
  induction ops with
  | nil => intro s; rfl
  | cons op rest ih => intro s; rw [List.foldl_cons, ih, applyOp_sources]

lemma foldl_applyOp_apiData (hash : String → String) :
    ∀ (ops : List CtxOp) (s : DBState),
      (ops.foldl (applyOp hash) s).apiData
        = ops.foldl (apiEffect hash) s.apiData := by
  intro ops
  induction ops with
  | nil => intro s; rfl
  | cons op rest ih =>
    intro s
    rw [List.foldl_cons, List.foldl_cons, ih, applyOp_apiData]

@[simp] lemma runHandlerOps_ingestLog (hash : String → String) (h : Handler)
    (s : DBState) : (runHandlerOps hash h s).ingestLog = s.ingestLog :=
  foldl_applyOp_ingestLog hash h.ops s

@[simp] lemma runHandlerOps_nextLogId (hash : String → String) (h : Handler)
    (s : DBState) : (runHandlerOps hash h s).nextLogId = s.nextLogId :=
  foldl_applyOp_nextLogId hash h.ops s

@[simp] lemma runHandlerOps_sources (hash : String → String) (h : Handler)
    (s : DBState) : (runHandlerOps hash h s).sources = s.sources :=
  foldl_applyOp_sources hash h.ops s

@[simp] lemma runHandlerOps_apiData (hash : String → String) (h : Handler)
    (s : DBState) :
    (runHandlerOps hash h s).apiData = h.ops.foldl (apiEffect hash) s.apiData :=
  foldl_applyOp_apiData hash h.ops s

@[simp] lemma logIngestStart_fst (s : DBState) (aid : String) (now : Nat) :
    (logIngestStart s aid now).1 = s.nextLogId := rfl

@[simp] lemma logIngestStart_ingestLog (s : DBState) (aid : String) (now : Nat) :
    (logIngestStart s aid now).2.ingestLog
      = s.ingestLog ++ [startLogRow aid s.nextLogId now] := rfl

@[simp] lemma logIngestStart_nextLogId (s : DBState) (aid : String) (now : Nat) :
    (logIngestStart s aid now).2.nextLogId = s.nextLogId + 1 := rfl

@[simp] lemma logIngestStart_sources (s : DBState) (aid : String) (now : Nat) :
    (logIngestStart s aid now).2.sources = s.sources := rfl

@[simp] lemma logIngestStart_apiData (s : DBState) (aid : String) (now : Nat) :
    (logIngestStart s aid now).2.apiData = s.apiData := rfl

@[simp] lemma logIngestSuccess_ingestLog (s : DBState) (logId c now : Nat) :
    (logIngestSuccess s logId c now).ingestLog
      = s.ingestLog.map fun r =>
          if r.id == logId then
            { r with
                status := "success"
                recordsCount := c
                finishedAt := some now }
          else r := rfl

@[simp] lemma logIngestSuccess_nextLogId (s : DBState) (logId c now : Nat) :
    (logIngestSuccess s logId c now).nextLogId = s.nextLogId := rfl

@[simp] lemma logIngestSuccess_sources (s : DBState) (logId c now : Nat) :
    (logIngestSuccess s logId c now).sources = s.sources := rfl

@[simp] lemma logIngestSuccess_apiData (s : DBState) (logId c now : Nat) :
    (logIngestSuccess s logId c now).apiData = s.apiData := rfl

@[simp] lemma logIngestError_ingestLog (s : DBState) (logId : Nat)
    (msg : String) (now : Nat) :
    (logIngestError s logId msg now).ingestLog
      = s.ingestLog.map fun r =>
          if r.id == logId then
            { r with
                status := "error"
                error := some msg
                finishedAt := some now }
          else r := rfl

@[simp] lemma logIngestError_nextLogId (s : DBState) (logId : Nat)
    (msg : String) (now : Nat) :
    (logIngestError s logId msg now).nextLogId = s.nextLogId := rfl

@[simp] lemma logIngestError_sources (s : DBState) (logId : Nat)
    (msg : String) (now : Nat) :
    (logIngestError s logId msg now).sources = s.sources := rfl

@[simp] lemma logIngestError_apiData (s : DBState) (logId : Nat)
    (msg : String) (now : Nat) :
    (logIngestError s logId msg now).apiData = s.apiData := rfl

@[simp] lemma updateLastFetched_ingestLog (s : DBState) (aid : String)
    (now : Nat) : (updateLastFetched s aid now).ingestLog = s.ingestLog := rfl

@[simp] lemma updateLastFetched_nextLogId (s : DBState) (aid : String)
    (now : Nat) : (updateLastFetched s aid now).nextLogId = s.nextLogId := rfl

@[simp] lemma updateLastFetched_apiData (s : DBState) (aid : String)
    (now : Nat) : (updateLastFetched s aid now).apiData = s.apiData := rfl

lemma runAdapter_ingestLog_shape (hash : String → String) (aid : String)
    (h : Handler) (now : Nat) (s : DBState) :
    ∃ u : LogRow → LogRow,
      (∀ r, (u r).id = r.id)
        ∧ u (startLogRow aid s.nextLogId now)
            = terminalLogRow aid h.outcome s.nextLogId now
        ∧ (runAdapter hash aid h now s).ingestLog
            = (s.ingestLog ++ [startLogRow aid s.nextLogId now]).map
                fun r => if r.id == s.nextLogId then u r else r := by
  cases houtcome : h.outcome with
  | none =>
    refine ⟨fun r =>
      { r with status := "success", recordsCount := 0, finishedAt := some now },
      fun r => rfl, rfl, ?_⟩
    simp [runAdapter, houtcome]
  | some e =>
    refine ⟨fun r =>
      { r with
          status := "error"
          error := some (extractMessage e)
          finishedAt := some now },
      fun r => rfl, rfl, ?_⟩
    simp [runAdapter, houtcome]

lemma runAdapter_nextLogId (hash : String → String) (aid : String)
    (h : Handler) (now : Nat) (s : DBState) :
    (runAdapter hash aid h now s).nextLogId = s.nextLogId + 1 := by
  cases houtcome : h.outcome <;> simp [runAdapter, houtcome]

lemma runAdapter_sources_of_error (hash : String → String) (aid : String)
    (h : Handler) (now : Nat) (s : DBState) (e : Thrown)
    (herr : h.outcome = some e) :
    (runAdapter hash aid h now s).sources = s.sources := by
  simp [runAdapter, herr]

lemma runAdapter_apiData (hash : String → String) (aid : String)
    (h : Handler) (now : Nat) (s : DBState) :
    (runAdapter hash aid h now s).apiData
      = h.ops.foldl (apiEffect hash) s.apiData := by
  cases houtcome : h.outcome <;> simp [runAdapter, houtcome]

lemma find?_update_append (l : List LogRow) (row : LogRow) (N : Nat)
    (u : LogRow → LogRow) (hlt : ∀ r ∈ l, r.id < N) (hrow : row.id = N)
    (huid : ∀ r, (u r).id = r.id) :
    ((l ++ [row]).map fun r => if r.id == N then u r else r).find?
      (fun r => r.id == N) = some (u row) := by
  induction l with
  | nil =>
    simp only [List.nil_append, List.map_cons, List.map_nil]
    simp [List.find?, hrow, huid row]
  | cons a rest ih =>
    have ha : (a.id == N) = false := by
      have := hlt a (List.mem_cons_self a rest)
      rcases hh : a.id == N with _ | _
      · rfl
      · exact absurd (beq_iff_eq.mp hh) (by omega)
    simp only [List.cons_append, List.map_cons]
    rw [if_neg (by simp [ha])]
    rw [List.find?_cons_of_neg _ (by simp [ha])]
    exact ih fun r hr => hlt r (List.mem_cons_of_mem a hr)

lemma find?_update_append_lt (l : List LogRow) (row : LogRow) (N j : Nat)
    (u : LogRow → LogRow) (hlt : ∀ r ∈ l, r.id < N) (hrow : row.id = N)
    (hj : j < N) (huid : ∀ r, (u r).id = r.id) :
    ((l ++ [row]).map fun r => if r.id == N then u r else r).find?
      (fun r => r.id == j) = l.find? (fun r => r.id == j) := by
  induction l with
  | nil =>
    simp only [List.nil_append, List.map_cons, List.map_nil]
    rw [if_pos (beq_iff_eq.mpr hrow)]
    have hne : ((u row).id == j) = false := by
      rcases hh : (u row).id == j with _ | _
      · rfl
      · have := beq_iff_eq.mp hh
        rw [huid row, hrow] at this
        omega
    simp only [List.find?, hne]
  | cons a rest ih =>
    have ha : (a.id == N) = false := by
      have := hlt a (List.mem_cons_self a rest)
      rcases hh : a.id == N with _ | _
      · rfl
      · exact absurd (beq_iff_eq.mp hh) (by omega)
    simp only [List.cons_append, List.map_cons]
    rw [if_neg (by simp [ha])]
    rcases haj : a.id == j with _ | _
    · simp only [List.find?, haj]
      exact ih fun r hr => hlt r (List.mem_cons_of_mem a hr)
    · simp only [List.find?, haj]

lemma runAdapter_findLog (hash : String → String) (aid : String) (h : Handler)
    (now : Nat) (s : DBState) (hwf : LogIdsBounded s) :
    findLog (runAdapter hash aid h now s) s.nextLogId
      = some (terminalLogRow aid h.outcome s.nextLogId now) := by
  obtain ⟨u, huid, hustart, hlog⟩ := runAdapter_ingestLog_shape hash aid h now s
  unfold findLog
  rw [hlog, find?_update_append s.ingestLog _ s.nextLogId u hwf rfl huid,
    hustart]

lemma runAdapter_findLog_lt (hash : String → String) (aid : String)
    (h : Handler) (now : Nat) (s : DBState) (hwf : LogIdsBounded s)
    (j : Nat) (hj : j < s.nextLogId) :
    findLog (runAdapter hash aid h now s) j = findLog s j := by
  obtain ⟨u, huid, _, hlog⟩ := runAdapter_ingestLog_shape hash aid h now s
  unfold findLog
  rw [hlog, find?_update_append_lt s.ingestLog _ s.nextLogId j u hwf rfl hj huid]

lemma runAdapter_wf (hash : String → String) (aid : String) (h : Handler)
    (now : Nat) (s : DBState) (hwf : LogIdsBounded s) :
    LogIdsBounded (runAdapter hash aid h now s) := by
  obtain ⟨u, huid, _, hlog⟩ := runAdapter_ingestLog_shape hash aid h now s
  intro r hr
  rw [runAdapter_nextLogId]
  rw [hlog] at hr
  obtain ⟨r0, hr0, heq⟩ := List.mem_map.mp hr
  have hid : r.id = r0.id := by
    subst heq
    by_cases h0 : (r0.id == s.nextLogId) = true
    · rw [if_pos h0]; exact huid r0
    · rw [if_neg h0]
  rcases List.mem_append.mp hr0 with hmem | hmem
  · have := hwf r0 hmem
    omega
  · have hr0N : r0.id = s.nextLogId := by
      have : r0 = startLogRow aid s.nextLogId now := by simpa using hmem
      rw [this]; rfl
    omega

@[simp] lemma dispatchAll_nil (hash : String → String) (now : Nat)
    (s : DBState) : dispatchAll hash [] now s = s := rfl

lemma dispatchAll_cons (hash : String → String) (job : String × Handler)
    (rest : List (String × Handler)) (now : Nat) (s : DBState) :
    dispatchAll hash (job :: rest) now s
      = dispatchAll hash rest now (runAdapter hash job.1 job.2 now s) := rfl

lemma dispatchAll_wf (hash : String → String) (now : Nat) :
    ∀ (jobs : List (String × Handler)) (s : DBState),
      LogIdsBounded s → LogIdsBounded (dispatchAll hash jobs now s) := by
  intro jobs
  induction jobs with
  | nil => intro s hwf; exact hwf
  | cons job rest ih =>
    intro s hwf
    rw [dispatchAll_cons]
    exact ih _ (runAdapter_wf hash job.1 job.2 now s hwf)

lemma dispatchAll_findLog_lt (hash : String → String) (now : Nat) :
    ∀ (jobs : List (String × Handler)) (s : DBState),
      LogIdsBounded s → ∀ j, j < s.nextLogId →
        findLog (dispatchAll hash jobs now s) j = findLog s j := by
  intro jobs
  induction jobs with
  | nil => intro s hwf j hj; rfl
  | cons job rest ih =>
    intro s hwf j hj
    rw [dispatchAll_cons]
    rw [ih _ (runAdapter_wf hash job.1 job.2 now s hwf) j
        (by rw [runAdapter_nextLogId]; omega)]
    exact runAdapter_findLog_lt hash job.1 job.2 now s hwf j hj

lemma dispatchAll_terminal (hash : String → String) (now : Nat) :
    ∀ (jobs : List (String × Handler)) (s : DBState),
      LogIdsBounded s → ∀ i (hi : i < jobs.length),
        findLog (dispatchAll hash jobs now s) (s.nextLogId + i)
          = some (terminalLogRow jobs[i].1 jobs[i].2.outcome
              (s.nextLogId + i) now) := by
  intro jobs
  induction jobs with
  | nil =>
    intro s hwf i hi
    exact absurd hi (by simp)
  | cons job rest ih =>
    intro s hwf i hi
    rw [dispatchAll_cons]
    cases i with
    | zero =>
      rw [Nat.add_zero,
        dispatchAll_findLog_lt hash now rest _
          (runAdapter_wf hash job.1 job.2 now s hwf) s.nextLogId
          (by rw [runAdapter_nextLogId]; omega)]
      simpa using runAdapter_findLog hash job.1 job.2 now s hwf
    | succ i =>
      have hrec := ih (runAdapter hash job.1 job.2 now s)
        (runAdapter_wf hash job.1 job.2 now s hwf) i
        (by simpa using Nat.lt_of_succ_lt_succ hi)
      rw [runAdapter_nextLogId] at hrec
      have harith : s.nextLogId + (i + 1) = s.nextLogId + 1 + i := by omega
      rw [harith]
      simpa using hrec

/-- **C4**: every dispatched job's audit-log entry goes from `running`
(after `logIngestStart` and throughout the handler's own context calls,
which cannot touch the log) to exactly one terminal state — `success` if
the handler returns and `error` with the thrown error's message if it
throws; the catch is local (`runAdapter` always produces a state), and in
the dispatch loop each job's entry gets its own terminal row determined
solely by that job's outcome, whatever the other jobs did. -/
theorem runAdapter_audit_lifecycle (hash : String → String) :
    (∀ (aid : String) (h : Handler) (now : Nat) (s : DBState),
        LogIdsBounded s →
        findLog (runHandlerOps hash h (logIngestStart s aid now).2) s.nextLogId
            = some (startLogRow aid s.nextLogId now)
          ∧ findLog (runAdapter hash aid h now s) s.nextLogId
            = some (terminalLogRow aid h.outcome s.nextLogId now))
      ∧ ∀ (jobs : List (String × Handler)) (now : Nat) (s : DBState),
          LogIdsBounded s → ∀ i (hi : i < jobs.length),
            findLog (dispatchAll hash jobs now s) (s.nextLogId + i)
              = some (terminalLogRow jobs[i].1 jobs[i].2.outcome
                  (s.nextLogId + i) now) := by
  refine ⟨?_, fun jobs now s hwf i hi =>
    dispatchAll_terminal hash now jobs s hwf i hi⟩
  intro aid h now s hwf
  refine ⟨?_, runAdapter_findLog hash aid h now s hwf⟩
  unfold findLog
  rw [runHandlerOps_ingestLog, logIngestStart_ingestLog,
    find?_append_of_all_false _ s.ingestLog _ (fun r hr => by
      have := hwf r hr
      rcases hh : r.id == s.nextLogId with _ | _
      · rfl
      · exact absurd (beq_iff_eq.mp hh) (by omega))]
  simp [List.find?, startLogRow]

/-- Witness for C4: two dispatched jobs, the first returning, the second
throwing; the second job's entry is finalized to `error` with its own
message. -/
theorem runAdapter_audit_lifecycle_witness :
    findLog (dispatchAll (fun x => x)
        [("tempo", { ops := [], outcome := none }),
         ("sismos", { ops := [], outcome := some (.errObject "boom") })] 7
        { apiData := [], locations := [], documents := [], ingestLog := [],
          nextLogId := 0, sources := [] }) (0 + 1)
      = some (terminalLogRow "sismos" (some (.errObject "boom")) (0 + 1) 7) :=
  (runAdapter_audit_lifecycle (fun x => x)).2
    [("tempo", { ops := [], outcome := none }),
     ("sismos", { ops := [], outcome := some (.errObject "boom") })] 7
    { apiData := [], locations := [], documents := [], ingestLog := [],
      nextLogId := 0, sources := [] }
    (fun r hr => absurd hr (List.not_mem_nil r)) 1 (by decide)

/-- **C6** (amended): when a handler throws, the `sources` table — in
particular the source's `last_fetched_at` — is left unchanged, the run is
recorded as an `error` audit row whose message is the one extracted from
the thrown value (which is empty when the thrown error's message is
empty), and the `api_data` table holds exactly the effect of the context
calls the handler made before throwing. -/
theorem runAdapter_error_frame (hash : String → String) (aid : String)
    (h : Handler) (now : Nat) (s : DBState) (e : Thrown)
    (hwf : LogIdsBounded s) (herr : h.outcome = some e) :
    (runAdapter hash aid h now s).sources = s.sources
      ∧ findLog (runAdapter hash aid h now s) s.nextLogId
          = some { id := s.nextLogId
                   adapterId := aid
                   status := "error"
                   recordsCount := 0
                   error := some (extractMessage e)
                   startedAt := now
                   finishedAt := some now }
      ∧ (runAdapter hash aid h now s).apiData
          = h.ops.foldl (apiEffect hash) s.apiData := by
  refine ⟨runAdapter_sources_of_error hash aid h now s e herr, ?_,
    runAdapter_apiData hash aid h now s⟩
  have hterm := runAdapter_findLog hash aid h now s hwf
  rw [herr] at hterm
  exact hterm

/-- Counterexample for C6 as stated: a handler that throws an `Error`
whose message is the empty string still yields an `error` audit row, but
its recorded message is `""` — not a non-empty message. -/
theorem runAdapter_error_message_empty_cex :
    findLog (runAdapter (fun x => x) "demo"
        { ops := [], outcome := some (.errObject "") } 5
        { apiData := [], locations := [], documents := [], ingestLog := [],
          nextLogId := 0, sources := [{ id := "demo", lastFetchedAt := none }] })
        0
      = some { id := 0
               adapterId := "demo"
               status := "error"
               recordsCount := 0
               error := some ""
               startedAt := 5
               finishedAt := some 5 } := by
  rfl

/-- Witness for the amended C6: a handler stores one record and then
throws `"boom"`; the source row keeps its old `last_fetched_at`, the audit
row carries the message, and the stored record remains. -/
theorem runAdapter_error_frame_witness :
    (runAdapter (fun x => x) "demo"
        { ops := [.storeRecord "demo" "reading" "v1" none 0 "u"]
          outcome := some (.errObject "boom") } 9
        { apiData := [], locations := [], documents := [], ingestLog := [],
          nextLogId := 0,
          sources := [{ id := "demo", lastFetchedAt := some 3 }] }).sources
      = [{ id := "demo", lastFetchedAt := some 3 }]
      ∧ findLog (runAdapter (fun x => x) "demo"
          { ops := [.storeRecord "demo" "reading" "v1" none 0 "u"]
            outcome := some (.errObject "boom") } 9
          { apiData := [], locations := [], documents := [], ingestLog := [],
            nextLogId := 0,
            sources := [{ id := "demo", lastFetchedAt := some 3 }] }) 0
        = some { id := 0
                 adapterId := "demo"
                 status := "error"
                 recordsCount := 0
                 error := some (extractMessage (.errObject "boom"))
                 startedAt := 9
                 finishedAt := some 9 }
      ∧ (runAdapter (fun x => x) "demo"
          { ops := [.storeRecord "demo" "reading" "v1" none 0 "u"]
            outcome := some (.errObject "boom") } 9
          { apiData := [], locations := [], documents := [], ingestLog := [],
            nextLogId := 0,
            sources := [{ id := "demo", lastFetchedAt := some 3 }] }).apiData
        = [.storeRecord "demo" "reading" "v1" none 0 "u"].foldl
            (apiEffect (fun x => x)) [] :=
  runAdapter_error_frame (fun x => x) "demo"
    { ops := [.storeRecord "demo" "reading" "v1" none 0 "u"]
      outcome := some (.errObject "boom") } 9
    { apiData := [], locations := [], documents := [], ingestLog := [],
      nextLogId := 0,
      sources := [{ id := "demo", lastFetchedAt := some 3 }] }
    (.errObject "boom") (fun r hr => absurd hr (List.not_mem_nil r)) rfl

/-- **C10** (implicit): a job finalized as `success` always has record
count 0 in its audit row — `runAdapter` passes the constant 0, whatever
records the handler's context calls stored — and no context primitive can
touch `ingest_log`, so a handler has no way to report a count. -/
theorem logSuccess_records_zero (hash : String → String) (aid : String)
    (h : Handler) (now : Nat) (s : DBState) (hwf : LogIdsBounded s)
    (hok : h.outcome = none) :
    findLog (runAdapter hash aid h now s) s.nextLogId
        = some { id := s.nextLogId
                 adapterId := aid
                 status := "success"
                 recordsCount := 0
                 error := none
                 startedAt := now
                 finishedAt := some now }
      ∧ ∀ (op : CtxOp) (st : DBState),
          (applyOp hash st op).ingestLog = st.ingestLog := by
  refine ⟨?_, fun op st => applyOp_ingestLog hash st op⟩
  have hterm := runAdapter_findLog hash aid h now s hwf
  rw [hok] at hterm
  exact hterm

/-- Witness for C10: a succeeding handler that stored two records still
gets `recordsCount = 0` in its `success` row. -/
theorem logSuccess_records_zero_witness :
    findLog (runAdapter (fun x => x) "ipma"
        { ops := [.storeRecord "ipma" "t" "a" none 0 "u1",
                  .storeRecord "ipma" "t" "b" none 0 "u2"]
          outcome := none } 9
        { apiData := [], locations := [], documents := [], ingestLog := [],
          nextLogId := 0, sources := [] }) 0
      = some { id := 0
               adapterId := "ipma"
               status := "success"
               recordsCount := 0
               error := none
               startedAt := 9
               finishedAt := some 9 } :=
  (logSuccess_records_zero (fun x => x) "ipma"
    { ops := [.storeRecord "ipma" "t" "a" none 0 "u1",
              .storeRecord "ipma" "t" "b" none 0 "u2"]
      outcome := none } 9
    { apiData := [], locations := [], documents := [], ingestLog := [],
      nextLogId := 0, sources := [] }
    (fun r hr => absurd hr (List.not_mem_nil r)) rfl).1

end PtApis
